import Mathlib

/-!
Verification of the process-list addon
(`src/atomicshop/addons/process_list/process_list.cpp`).

The module is a Windows DLL with three pieces of behaviour we model:

* `EnableDebugPrivilege` — attempts to add SeDebugPrivilege to the current
  process token, returning `false` on the first failing step.
* `GetProcessCommandLine` — given a pid, opens the target process, resolves
  its module base name into the caller's name buffer, and walks
  PEB → RTL_USER_PROCESS_PARAMETERS → CommandLine (a length-prefixed
  UNICODE_STRING) with three cross-process reads, delivering a
  freshly-allocated, null-terminated wide-character buffer or `false`.
* `GetProcessDetails` — enables the privilege (returning early on failure),
  takes a Toolhelp snapshot, and iterates it with a do/while loop whose
  guard is `Process32NextW(...) && !cancelRequested.load()`, invoking the
  callback exactly once per processed entry.

OS interactions (which syscalls succeed, what bytes foreign memory holds)
are modelled by explicit environment records; the control flow, buffer
arithmetic and buffer lifecycle are transcribed from the source.  Wide
characters are modelled as `Nat` code units, foreign memory as a byte-level
function `Nat → Nat`.
-/

set_option autoImplicit false

/-- `MAX_PATH` on Windows, the capacity of `szProcessName` in the source. -/
def MAXPATH : Nat := 260

/-! ### Privilege elevation (`EnableDebugPrivilege`, source lines 45-68) -/

/-- Outcomes of the OS calls made by `EnableDebugPrivilege`:
`OpenProcessToken`, `LookupPrivilegeValue`, `AdjustTokenPrivileges`, and the
`GetLastError() == ERROR_NOT_ALL_ASSIGNED` probe after a successful
adjustment. -/
structure TokenEnv where
  openTokenOk : Bool
  lookupOk : Bool
  adjustOk : Bool
  notAllAssigned : Bool
deriving DecidableEq

/-- Result of `EnableDebugPrivilege`: the boolean return value plus the
token-handle lifecycle (whether `OpenProcessToken` handed out a handle and
whether `CloseHandle` was called on it before returning). -/
structure PrivResult where
  ok : Bool
  tokenOpened : Bool
  tokenClosed : Bool
deriving DecidableEq

/-- Transcription of `EnableDebugPrivilege` (source lines 45-68).  Each
failing step `return false`s immediately; only the final success path
reaches the `CloseHandle(hToken)` at line 66. -/
def EnableDebugPrivilege (env : TokenEnv) : PrivResult :=
  if !env.openTokenOk then ⟨false, false, false⟩
  else if !env.lookupOk then ⟨false, true, false⟩
  else if !env.adjustOk then ⟨false, true, false⟩
  else if env.notAllAssigned then ⟨false, true, false⟩
  else ⟨true, true, true⟩

/-! ### Cross-process memory reader (`GetProcessCommandLine`, lines 70-123) -/

/-- Per-target-process environment: outcomes of each OS step taken by
`GetProcessCommandLine`, in source order, plus the contents of the foreign
process's command-line descriptor.

* `openOk` — `OpenProcess` yields a handle.
* `moduleName` — `GetModuleBaseNameW` result (`none` = the call returned 0).
* `ntdllOk` — `GetModuleHandleW(L"ntdll.dll")` non-null.
* `procAddrOk` — `GetProcAddress(..., "NtQueryInformationProcess")` non-null.
* `queryStatus` — the NTSTATUS returned by `NtQueryInformationProcess`
  (`0` = `STATUS_SUCCESS`).
* `readPebOk`, `readParamsOk` — cross-process reads 1 and 2.
* `cmdLen` — `upp.CommandLine.Length`, a `USHORT` byte count read out of the
  foreign process (arbitrary as far as this code is concerned).
* `cmdMem` — byte at each offset of the foreign command-line buffer.
* `readCmdOk` — cross-process read 3 (the `cmdLen`-byte copy). -/
structure ProcEnv where
  openOk : Bool
  moduleName : Option (List Nat)
  ntdllOk : Bool
  procAddrOk : Bool
  queryStatus : Int
  readPebOk : Bool
  readParamsOk : Bool
  cmdLen : Nat
  cmdMem : Nat → Nat
  readCmdOk : Bool

/-- Result of `GetProcessCommandLine`: the boolean return value, the
delivered command-line buffer (`none` when the function returned `false`,
mirroring the untouched `*ppszCmdLine`), the final contents of the caller's
`szProcessName` buffer, the number of `new wchar_t[]` allocations and
`delete[]` releases performed inside the call, and whether the opened
process handle was closed. -/
structure CmdResult where
  ok : Bool
  cmdLine : Option (List Nat)
  nameBuf : List Nat
  allocs : Nat
  frees : Nat
  handleClosed : Bool
deriving DecidableEq

/-- The `i`-th 16-bit text unit assembled from a byte-level memory, little
endian, as the `ReadProcessMemory` of `upp.CommandLine.Length` bytes into a
`wchar_t` array lays them out. -/
def wunit (mem : Nat → Nat) (i : Nat) : Nat :=
  mem (2 * i) % 256 + 256 * (mem (2 * i + 1) % 256)

/-- The complete 16-bit units of the foreign command line: `cmdLen / 2`
units (C integer division by `sizeof(wchar_t)`).  When `cmdLen` is odd the
trailing lone byte lands in the unit that the explicit terminator at index
`cmdLen / 2` then overwrites, so it never reaches the caller. -/
def cmdUnits (env : ProcEnv) : List Nat :=
  (List.range (env.cmdLen / 2)).map (wunit env.cmdMem)

/-- Transcription of `GetProcessCommandLine` (source lines 70-123) for one
target process described by `env`.  `nameIn` is the caller's
`szProcessName` buffer contents on entry and `nameCap` its capacity
(`dwNameSize`).  `GetModuleBaseNameW`, when it succeeds, overwrites that
buffer with the module base name truncated to `nameCap - 1` units; every
later failure leaves that overwrite in place.  The local buffer of
`cmdLen / 2 + 1` units is allocated just before cross-process read 3 and
`delete[]`d on that read's failure path (lines 113-118); on success it is
explicitly terminated at unit index `cmdLen / 2` (line 120) and handed to
the caller. -/
def GetProcessCommandLine (env : ProcEnv) (nameIn : List Nat) (nameCap : Nat) :
    CmdResult :=
  if !env.openOk then ⟨false, none, nameIn, 0, 0, false⟩
  else
    match env.moduleName with
    | none => ⟨false, none, nameIn, 0, 0, true⟩
    | some mn =>
      let name := mn.take (nameCap - 1)
      if !env.ntdllOk then ⟨false, none, name, 0, 0, true⟩
      else if !env.procAddrOk then ⟨false, none, name, 0, 0, true⟩
      else if env.queryStatus ≠ 0 then ⟨false, none, name, 0, 0, true⟩
      else if !env.readPebOk then ⟨false, none, name, 0, 0, true⟩
      else if !env.readParamsOk then ⟨false, none, name, 0, 0, true⟩
      else if !env.readCmdOk then ⟨false, none, name, 1, 1, true⟩
      else ⟨true, some (cmdUnits env ++ [0]), name, 1, 0, true⟩

/-! ### Process enumerator (`GetProcessDetails`, lines 131-169) -/

/-- One snapshot entry: `PROCESSENTRY32W.th32ProcessID` and the contents of
`szExeFile` (wide-character units, no terminator). -/
structure Entry where
  pid : Nat
  exeFile : List Nat
deriving DecidableEq

/-- The `L"<unknown>"` array initializer of `szProcessName` (line 156). -/
def placeholderName : List Nat := [60, 117, 110, 107, 110, 111, 119, 110, 62]

/-- `wcsncpy_s(dst, cap, src, _TRUNCATE)` (line 157): copies `src` into
`dst`, truncated to `cap - 1` units plus a terminator.  The destination's
previous contents — including the `<unknown>` initializer — are overwritten
unconditionally, even by an empty source. -/
def wcsncpyS (cap : Nat) (_dst src : List Nat) : List Nat :=
  src.take (cap - 1)

/-- One iteration of the do/while body (lines 154-165) for the snapshot
entry `e` whose OS behaviour is `penv`: build the name buffer from the
snapshot entry, attempt command-line enrichment, and produce the callback
argument triple `(pid, processName, commandLine-or-absent)`. -/
def processEntry (penv : ProcEnv) (e : Entry) : Nat × List Nat × Option (List Nat) :=
  let nameBuf := wcsncpyS MAXPATH placeholderName e.exeFile
  let r := GetProcessCommandLine penv nameBuf MAXPATH
  if r.ok then (e.pid, r.nameBuf, r.cmdLine) else (e.pid, r.nameBuf, none)

/-- The do/while loop (lines 154-166).  `pe` gives each pid's OS behaviour
and `c k` is the value `cancelRequested.load()` returns at the loop-guard
check reached after `k` entries have been processed.  The guard is
`Process32NextW(hSnap, &pe32) && !cancelRequested.load()`: the flag is read
only when a next entry exists, after the current entry's body (enrichment,
callback, buffer release) has completed in full. -/
def runEntries (pe : Nat → ProcEnv) (c : Nat → Bool) :
    List Entry → Nat → List (Nat × List Nat × Option (List Nat))
  | [], _ => []
  | e :: rest, k =>
    processEntry (pe e.pid) e ::
      (if rest.isEmpty then []
       else if c (k + 1) then []
       else runEntries pe c rest (k + 1))

/-- Whole-call environment for `GetProcessDetails`: the token-environment
feeding `EnableDebugPrivilege`, whether `CreateToolhelp32Snapshot`
succeeds, the snapshot contents (`Process32FirstW` fails exactly when the
snapshot yields no entry), each pid's `ProcEnv`, and the cancellation-flag
timeline `cancel` indexed by entries processed. -/
structure SysEnv where
  tok : TokenEnv
  snapOk : Bool
  entries : List Entry
  procEnv : Nat → ProcEnv
  cancel : Nat → Bool

/-- Transcription of `GetProcessDetails` (source lines 131-169), returning
the diagnostic lines written to `std::wcout` and the list of callback
invocations in order.  Elevation failure, snapshot-creation failure and
first-entry failure each print a diagnostic and `return` before any
callback. -/
def GetProcessDetails (env : SysEnv) :
    List String × List (Nat × List Nat × Option (List Nat)) :=
  if !(EnableDebugPrivilege env.tok).ok then
    (["Failed to enable debug privilege."], [])
  else if !env.snapOk then
    (["Failed to create snapshot."], [])
  else
    match env.entries with
    | [] => (["Failed to get first process from snapshot."], [])
    | e :: rest => ([], runEntries env.procEnv env.cancel (e :: rest) 0)

/-! ### Cancellation flag (`cancelRequested`, lines 8 and 127-129) -/

/-- `std::atomic<bool> cancelRequested(false);` (line 8). -/
def initialCancel : Bool := false

/-- The externally visible operations of the module that can touch the
flag: `RequestCancellation` and `GetProcessDetails`. -/
inductive Op where
  | requestCancellation
  | getDetails (env : SysEnv)

/-- Effect of each exported operation on `cancelRequested`:
`RequestCancellation` performs `cancelRequested.store(true)` (line 128);
`GetProcessDetails` only ever `load()`s the flag (line 166) and never
writes it. -/
def stepFlag (flag : Bool) : Op → Bool
  | .requestCancellation => true
  | .getDetails _ => flag

/-- A `GetProcessDetails` call made while the flag holds the fixed value
`flag` (single-threaded pass: no concurrent store during the call). -/
def detailsWithFlag (flag : Bool) (env : SysEnv) :
    List String × List (Nat × List Nat × Option (List Nat)) :=
  GetProcessDetails { env with cancel := fun _ => flag }

/-! ### Loop lemmas -/

/-- Unfolding: a last entry is processed and the loop exits without reading
the flag (`Process32NextW` fails first in the short-circuit guard). -/
theorem runEntries_single (pe : Nat → ProcEnv) (c : Nat → Bool) (e : Entry) (k : Nat) :
    runEntries pe c [e] k = [processEntry (pe e.pid) e] := by
  simp [runEntries]

/-- Unfolding: with a further entry available and the flag reading `true`
at the check after the current entry, the loop stops. -/
theorem runEntries_cons2_true (pe : Nat → ProcEnv) (c : Nat → Bool) (e f : Entry)
    (rs : List Entry) (k : Nat) (h : c (k + 1) = true) :
    runEntries pe c (e :: f :: rs) k = [processEntry (pe e.pid) e] := by
  simp [runEntries, h]

/-- Unfolding: with a further entry available and the flag reading `false`
at the check after the current entry, the loop continues. -/
theorem runEntries_cons2_false (pe : Nat → ProcEnv) (c : Nat → Bool) (e f : Entry)
    (rs : List Entry) (k : Nat) (h : c (k + 1) = false) :
    runEntries pe c (e :: f :: rs) k =
      processEntry (pe e.pid) e :: runEntries pe c (f :: rs) (k + 1) := by
  simp [runEntries, h]

/-- The loop never produces more callbacks than snapshot entries. -/
theorem runEntries_length_le (pe : Nat → ProcEnv) (c : Nat → Bool) :
    ∀ (es : List Entry) (k : Nat), (runEntries pe c es k).length ≤ es.length := by
  intro es
  induction es with
  | nil => intro k; simp [runEntries]
  | cons e rest ih =>
    intro k
    cases rest with
    | nil => simp [runEntries_single]
    | cons f rs =>
      cases hflag : c (k + 1) with
      | true => simp [runEntries_cons2_true pe c e f rs k hflag]
      | false =>
        rw [runEntries_cons2_false pe c e f rs k hflag]
        have := ih (k + 1)
        simp only [List.length_cons] at this ⊢
        omega

/-- A nonempty snapshot always yields at least the first entry's callback
(the loop is do/while: the body runs before any guard check). -/
theorem runEntries_ne_nil (pe : Nat → ProcEnv) (c : Nat → Bool) (e : Entry)
    (rest : List Entry) (k : Nat) : runEntries pe c (e :: rest) k ≠ [] := by
  cases rest with
  | nil => simp [runEntries_single]
  | cons f rs =>
    cases hflag : c (k + 1) with
    | true => simp [runEntries_cons2_true pe c e f rs k hflag]
    | false => simp [runEntries_cons2_false pe c e f rs k hflag]

/-- The callback list is exactly the processed prefix of the snapshot,
entry by entry and in order: entry `i` of the output is the full
`processEntry` result for entry `i` of the snapshot. -/
theorem runEntries_take (pe : Nat → ProcEnv) (c : Nat → Bool) :
    ∀ (es : List Entry) (k : Nat),
      runEntries pe c es k =
        (es.take (runEntries pe c es k).length).map
          (fun e => processEntry (pe e.pid) e) := by
  intro es
  induction es with
  | nil => intro k; simp [runEntries]
  | cons e rest ih =>
    intro k
    cases rest with
    | nil => simp [runEntries_single]
    | cons f rs =>
      cases hflag : c (k + 1) with
      | true => simp [runEntries_cons2_true pe c e f rs k hflag]
      | false =>
        rw [runEntries_cons2_false pe c e f rs k hflag]
        simp only [List.length_cons, List.take_succ_cons, List.map_cons]
        rw [← ih (k + 1)]

/-- If the loop stopped short of the snapshot's end, the flag read at the
stopping check (after exactly `length` entries were processed) was `true`:
only an observed cancellation cuts a pass short. -/
theorem runEntries_stop (pe : Nat → ProcEnv) (c : Nat → Bool) :
    ∀ (es : List Entry) (k : Nat),
      (runEntries pe c es k).length < es.length →
      c (k + (runEntries pe c es k).length) = true := by
  intro es
  induction es with
  | nil => intro k h; simp [runEntries] at h
  | cons e rest ih =>
    intro k h
    cases rest with
    | nil => rw [runEntries_single] at h; simp at h
    | cons f rs =>
      cases hflag : c (k + 1) with
      | true =>
        rw [runEntries_cons2_true pe c e f rs k hflag]
        exact hflag
      | false =>
        rw [runEntries_cons2_false pe c e f rs k hflag] at h ⊢
        simp only [List.length_cons] at h ⊢
        have h3 := ih (k + 1) (by simp only [List.length_cons]; omega)
        rw [(by omega : k + ((runEntries pe c (f :: rs) (k + 1)).length + 1)
          = k + 1 + (runEntries pe c (f :: rs) (k + 1)).length)]
        exact h3

/-- If the flag reads `true` at some check with entries still remaining
(`1 ≤ j < es.length`), processing stops at or before that check: at most
`j` callbacks, strictly fewer than the snapshot's entry count. -/
theorem runEntries_cancel_le (pe : Nat → ProcEnv) (c : Nat → Bool) :
    ∀ (es : List Entry) (k j : Nat), 1 ≤ j → j < es.length → c (k + j) = true →
      (runEntries pe c es k).length ≤ j := by
  intro es
  induction es with
  | nil => intro k j h1 h2 _; simp at h2
  | cons e rest ih =>
    intro k j h1 h2 hc
    cases rest with
    | nil => simp at h2; omega
    | cons f rs =>
      cases hflag : c (k + 1) with
      | true =>
        rw [runEntries_cons2_true pe c e f rs k hflag]
        simpa using h1
      | false =>
        have hj2 : 2 ≤ j := by
          rcases Nat.eq_or_lt_of_le h1 with h | h
          · exfalso
            rw [← h] at hc
            rw [hc] at hflag
            exact Bool.noConfusion hflag
          · omega
        have hrec := ih (k + 1) (j - 1) (by omega)
          (by simp at h2 ⊢; omega)
          (by rw [(by omega : k + 1 + (j - 1) = k + j)]; exact hc)
        rw [runEntries_cons2_false pe c e f rs k hflag]
        simp only [List.length_cons]
        omega

/-- If no check with entries remaining ever reads `true`, the loop runs the
whole snapshot: one callback per entry, in order. -/
theorem runEntries_nocancel (pe : Nat → ProcEnv) (c : Nat → Bool) :
    ∀ (es : List Entry) (k : Nat),
      (∀ j, 1 ≤ j → j < es.length → c (k + j) = false) →
      runEntries pe c es k = es.map (fun e => processEntry (pe e.pid) e) := by
  intro es
  induction es with
  | nil => intro k _; simp [runEntries]
  | cons e rest ih =>
    intro k hq
    cases rest with
    | nil => simp [runEntries_single]
    | cons f rs =>
      have h1 : c (k + 1) = false := hq 1 (by omega) (by simp)
      have hrest := ih (k + 1) (fun j hj1 hj2 => by
        rw [(by omega : k + 1 + j = k + (j + 1))]
        exact hq (j + 1) (by omega) (by simp at hj2 ⊢; omega))
      rw [runEntries_cons2_false pe c e f rs k h1, hrest]
      simp

/-- With the flag already `true` when the pass starts, exactly the first
entry is processed: the first guard check stops the loop. -/
theorem runEntries_cancelled (pe : Nat → ProcEnv) (e : Entry) (rest : List Entry)
    (k : Nat) :
    runEntries pe (fun _ => true) (e :: rest) k = [processEntry (pe e.pid) e] := by
  cases rest with
  | nil => simp [runEntries_single]
  | cons f rs => exact runEntries_cons2_true pe (fun _ => true) e f rs k rfl

/-! ### Reader lemmas -/

/-- Branch analysis of `GetProcessCommandLine`: on the `false` return the
caller's command-line pointer is untouched (`none`) and every buffer
allocated inside the call has been `delete[]`d; on the `true` return the
delivered buffer is the assembled foreign units plus the explicit
terminator, and exactly the one live allocation is handed to the caller. -/
theorem getCmdLine_cases (env : ProcEnv) (nameIn : List Nat) (cap : Nat) :
    ((GetProcessCommandLine env nameIn cap).ok = false →
      (GetProcessCommandLine env nameIn cap).cmdLine = none ∧
      (GetProcessCommandLine env nameIn cap).frees =
        (GetProcessCommandLine env nameIn cap).allocs) ∧
    ((GetProcessCommandLine env nameIn cap).ok = true →
      (GetProcessCommandLine env nameIn cap).cmdLine = some (cmdUnits env ++ [0]) ∧
      (GetProcessCommandLine env nameIn cap).allocs = 1 ∧
      (GetProcessCommandLine env nameIn cap).frees = 0) := by
  rcases env with ⟨o, mn, nt, pa, qs, rp, rpar, len, mem, rc⟩
  cases o <;> rcases mn with _ | mn <;> cases nt <;> cases pa <;>
    cases rp <;> cases rpar <;> cases rc <;> by_cases hq : qs = 0 <;>
      simp_all [GetProcessCommandLine, cmdUnits]

/-- If the reader fails at or before the module-base-name resolution, the
caller's name buffer is left exactly as it was on entry. -/
theorem getCmdLine_nameBuf_early (env : ProcEnv) (nameIn : List Nat) (cap : Nat)
    (h : env.openOk = false ∨ env.moduleName = none) :
    (GetProcessCommandLine env nameIn cap).nameBuf = nameIn := by
  rcases env with ⟨o, mn, nt, pa, qs, rp, rpar, len, mem, rc⟩
  cases o <;> rcases h with h | h <;> simp_all [GetProcessCommandLine]

/-- Once `OpenProcess` and `GetModuleBaseNameW` have both succeeded, every
path of the reader — all later failure paths included — leaves the module
base name (truncated to the buffer capacity) in the caller's name buffer,
overwriting whatever the caller had put there. -/
theorem getCmdLine_nameBuf_late (env : ProcEnv) (nameIn : List Nat) (cap : Nat)
    (mn : List Nat) (ho : env.openOk = true) (hm : env.moduleName = some mn) :
    (GetProcessCommandLine env nameIn cap).nameBuf = mn.take (cap - 1) := by
  rcases env with ⟨o, mno, nt, pa, qs, rp, rpar, len, mem, rc⟩
  simp only at ho hm
  subst ho hm
  cases nt <;> cases pa <;> cases rp <;> cases rpar <;> cases rc <;>
    by_cases hq : qs = 0 <;> simp_all [GetProcessCommandLine]

/-! ### Claims about the reader and the privilege routine -/

/-- Concrete token environment: `OpenProcessToken` succeeds and
`LookupPrivilegeValue` fails. -/
def tokenEnvLookupFail : TokenEnv := ⟨true, false, true, false⟩

/-- Claim C10: whenever `OpenProcessToken` succeeds but a later step of
`EnableDebugPrivilege` fails (privilege lookup, adjustment, or
`ERROR_NOT_ALL_ASSIGNED`), the function returns `false` without closing the
opened token handle; the handle is closed only on the fully successful
path. -/
theorem C10_token_handle_leak (env : TokenEnv) :
    ((EnableDebugPrivilege env).tokenOpened = true →
      (EnableDebugPrivilege env).ok = false →
      (EnableDebugPrivilege env).tokenClosed = false) ∧
    ((EnableDebugPrivilege env).tokenClosed = true →
      (EnableDebugPrivilege env).ok = true) := by
  rcases env with ⟨o, l, a, n⟩
  cases o <;> cases l <;> cases a <;> cases n <;> simp [EnableDebugPrivilege]

/-- Witness for C10: with the token opened and the privilege lookup
failing, the call returns `false` and the token handle stays open. -/
theorem C10_token_handle_leak_witness :
    (EnableDebugPrivilege tokenEnvLookupFail).tokenClosed = false ∧
    (EnableDebugPrivilege tokenEnvLookupFail).ok = false :=
  ⟨(C10_token_handle_leak tokenEnvLookupFail).1 (by decide) (by decide), by decide⟩

/-- Concrete reader environment in which everything up to the third
cross-process read succeeds and that final `ReadProcessMemory` fails. -/
def penvReadCmdFail : ProcEnv :=
  ⟨true, some [97], true, true, 0, true, true, 10, fun _ => 65, false⟩

/-- Claim C5: the reader never delivers a partially written buffer — every
invocation either returns a fully-copied, explicitly terminated buffer or
reports absent, and on the failure path every allocation made inside the
call (the buffer allocated before cross-process read 3) has been released
before returning. -/
theorem C5_reader_buffer_hygiene (env : ProcEnv) (nameIn : List Nat) (cap : Nat) :
    ((GetProcessCommandLine env nameIn cap).ok = false →
      (GetProcessCommandLine env nameIn cap).cmdLine = none ∧
      (GetProcessCommandLine env nameIn cap).frees =
        (GetProcessCommandLine env nameIn cap).allocs) ∧
    ((GetProcessCommandLine env nameIn cap).ok = true →
      (GetProcessCommandLine env nameIn cap).cmdLine = some (cmdUnits env ++ [0]) ∧
      (GetProcessCommandLine env nameIn cap).allocs =
        (GetProcessCommandLine env nameIn cap).frees + 1) := by
  refine ⟨(getCmdLine_cases env nameIn cap).1, fun h => ?_⟩
  obtain ⟨h1, h2, h3⟩ := (getCmdLine_cases env nameIn cap).2 h
  exact ⟨h1, by omega⟩

/-- Witness for C5: failure at the third cross-process read reports absent
with the allocated buffer released (one allocation, one release). -/
theorem C5_reader_buffer_hygiene_witness :
    (GetProcessCommandLine penvReadCmdFail [] MAXPATH).cmdLine = none ∧
    (GetProcessCommandLine penvReadCmdFail [] MAXPATH).frees =
      (GetProcessCommandLine penvReadCmdFail [] MAXPATH).allocs :=
  (C5_reader_buffer_hygiene penvReadCmdFail [] MAXPATH).1 (by decide)

/-- Concrete reader environment whose foreign descriptor reports an odd
byte length (`Length = 1`), with all OS steps succeeding. -/
def penvOddLen : ProcEnv :=
  ⟨true, some [97], true, true, 0, true, true, 1, fun _ => 65, true⟩

/-- Counterexample to claim C6: with a reported command-line length of one
byte, the reader succeeds, reads one byte, but delivers a buffer holding
zero content bytes before the terminator (the lone byte lands in the unit
the terminator overwrites) — bytes read do not equal bytes delivered. -/
theorem C6_counterexample :
    (GetProcessCommandLine penvOddLen [] MAXPATH).ok = true ∧
    (GetProcessCommandLine penvOddLen [] MAXPATH).cmdLine = some [0] ∧
    penvOddLen.cmdLen = 1 ∧
    2 * (cmdUnits penvOddLen).length ≠ penvOddLen.cmdLen := by
  decide

/-- Claim C6 (amended): every delivered buffer is the assembled content
units followed by the explicit terminator at unit index `Length / 2`, and
its content-byte count is the reported byte count rounded down to a whole
text unit — exactly the reported count whenever that count is a multiple
of the text-unit size (every well-formed descriptor), one byte short when
the foreign process reports an odd length. -/
theorem C6_roundtrip_amended (env : ProcEnv) (nameIn : List Nat) (cap : Nat)
    (h : (GetProcessCommandLine env nameIn cap).ok = true) :
    (GetProcessCommandLine env nameIn cap).cmdLine = some (cmdUnits env ++ [0]) ∧
    (cmdUnits env).length = env.cmdLen / 2 ∧
    2 * (cmdUnits env).length = env.cmdLen - env.cmdLen % 2 := by
  obtain ⟨h1, -, -⟩ := (getCmdLine_cases env nameIn cap).2 h
  refine ⟨h1, by simp [cmdUnits], ?_⟩
  simp only [cmdUnits, List.length_map, List.length_range]
  omega

/-- Witness for C6 (amended): an even four-byte command line is delivered
as its two content units plus the terminator — all four reported bytes. -/
theorem C6_roundtrip_amended_witness :
    (GetProcessCommandLine
      ⟨true, some [97], true, true, 0, true, true, 4, fun _ => 65, true⟩ [] MAXPATH).cmdLine =
      some (cmdUnits ⟨true, some [97], true, true, 0, true, true, 4, fun _ => 65, true⟩ ++ [0]) ∧
    2 * (cmdUnits ⟨true, some [97], true, true, 0, true, true, 4, fun _ => 65, true⟩).length = 4 :=
  ⟨(C6_roundtrip_amended _ [] MAXPATH (by decide)).1,
   (C6_roundtrip_amended
      ⟨true, some [97], true, true, 0, true, true, 4, fun _ => 65, true⟩ [] MAXPATH (by decide)).2.2⟩

/-! ### Claims about the enumerator -/

/-- Concrete reader environment for an inaccessible process:
`OpenProcess` itself fails. -/
def penvDenied : ProcEnv :=
  ⟨false, none, false, false, 1, false, false, 0, fun _ => 0, false⟩

/-- Concrete reader environment in which `OpenProcess` and
`GetModuleBaseNameW` succeed (resolving the name `b`) but
`NtQueryInformationProcess` then fails. -/
def penvNameOverwrite : ProcEnv :=
  ⟨true, some [98], true, true, 1, true, true, 0, fun _ => 0, true⟩

/-- Counterexample to claim C3: the reader fails (NTSTATUS nonzero after a
successful name resolution), yet the caller's name buffer no longer holds
the snapshot name `[97]` — it was overwritten with the module base name
`[98]` at step 2 before the failure. -/
theorem C3_counterexample :
    (GetProcessCommandLine penvNameOverwrite [97] MAXPATH).ok = false ∧
    (GetProcessCommandLine penvNameOverwrite [97] MAXPATH).nameBuf ≠ [97] := by
  decide

/-- Claim C3 (amended): when enrichment fails at or before the
module-base-name resolution the caller's buffer still holds the snapshot
name; when it fails after a successful resolution the buffer holds the
resolved module base name (truncated to capacity), which need not equal
the snapshot name. -/
theorem C3_name_on_failure_amended (env : ProcEnv) (nameIn : List Nat) (cap : Nat) :
    ((env.openOk = false ∨ env.moduleName = none) →
      (GetProcessCommandLine env nameIn cap).nameBuf = nameIn) ∧
    (∀ mn, env.openOk = true → env.moduleName = some mn →
      (GetProcessCommandLine env nameIn cap).nameBuf = mn.take (cap - 1)) :=
  ⟨fun h => getCmdLine_nameBuf_early env nameIn cap h,
   fun mn ho hm => getCmdLine_nameBuf_late env nameIn cap mn ho hm⟩

/-- Witness for C3 (amended): with `OpenProcess` denied, the snapshot name
survives in the caller's buffer. -/
theorem C3_name_on_failure_amended_witness :
    (GetProcessCommandLine penvDenied [97] MAXPATH).nameBuf = [97] :=
  (C3_name_on_failure_amended penvDenied [97] MAXPATH).1 (Or.inl rfl)

/-- Claim C2, evaluated at the failing input: a snapshot entry whose
executable name is empty and whose process is inaccessible.  The delivered
`processName` is empty, although the `<unknown>` placeholder is nonempty:
the `wcsncpy_s` at line 157 overwrites the placeholder initializer
unconditionally, so the sentinel never reaches the callback. -/
theorem C2_empty_name_delivered :
    (processEntry penvDenied ⟨7, []⟩).2.1 = [] ∧
    placeholderName ≠ [] ∧
    wcsncpyS MAXPATH placeholderName [] = [] := by
  decide

/-- Concrete whole-call environment: privilege elevation fails at
`OpenProcessToken`, the snapshot would succeed and holds two entries. -/
def sysElevFail : SysEnv :=
  { tok := ⟨false, false, false, false⟩
  , snapOk := true
  , entries := [⟨1, [115]⟩, ⟨4, [115]⟩]
  , procEnv := fun _ => penvDenied
  , cancel := fun _ => false }

/-- Counterexample to claim C1: elevation fails with a two-entry snapshot
available, and `GetProcessDetails` delivers zero callbacks — the pass is
aborted rather than continued in degraded mode. -/
theorem C1_counterexample :
    (EnableDebugPrivilege sysElevFail.tok).ok = false ∧
    sysElevFail.entries.length = 2 ∧
    (GetProcessDetails sysElevFail).2 = [] := by
  decide

/-- Claim C1 (amended): if privilege elevation fails at the start of a
pass, `GetProcessDetails` emits the diagnostic and returns immediately —
no snapshot is taken and the callback is never invoked (elevation failure
is fatal to the pass, not degraded-mode). -/
theorem C1_elevation_fatal_amended (env : SysEnv)
    (h : (EnableDebugPrivilege env.tok).ok = false) :
    (GetProcessDetails env).1 = ["Failed to enable debug privilege."] ∧
    (GetProcessDetails env).2 = [] := by
  simp [GetProcessDetails, h]

/-- Witness for C1 (amended): in the concrete elevation-failure environment
the diagnostic is emitted and zero callbacks are delivered. -/
theorem C1_elevation_fatal_amended_witness :
    (GetProcessDetails sysElevFail).1 = ["Failed to enable debug privilege."] ∧
    (GetProcessDetails sysElevFail).2 = [] :=
  C1_elevation_fatal_amended sysElevFail (by decide)

/-- Counterexample to claim C8: in this environment snapshot creation and
the first-entry read both succeed, yet the pass aborts with zero callbacks
and a diagnostic — setup failure of the snapshot is not the only condition
aborting a pass (elevation failure also aborts). -/
theorem C8_counterexample :
    sysElevFail.snapOk = true ∧
    sysElevFail.entries ≠ [] ∧
    (GetProcessDetails sysElevFail).2 = [] ∧
    (GetProcessDetails sysElevFail).1 ≠ [] := by
  decide

/-- Claim C8 (amended): a pass delivers zero callbacks exactly when one of
the three setup steps fails — privilege elevation, snapshot creation, or
reading the first snapshot entry — and exactly those aborts emit a
diagnostic.  Snapshot failure is fatal as claimed, but it is not the only
fatal condition. -/
theorem C8_setup_abort_amended (env : SysEnv) :
    ((GetProcessDetails env).2 = [] ↔
      ((EnableDebugPrivilege env.tok).ok = false ∨ env.snapOk = false ∨
        env.entries = [])) ∧
    ((GetProcessDetails env).1 ≠ [] ↔
      ((EnableDebugPrivilege env.tok).ok = false ∨ env.snapOk = false ∨
        env.entries = [])) := by
  cases helev : (EnableDebugPrivilege env.tok).ok with
  | false => simp [GetProcessDetails, helev]
  | true =>
    cases hsnap : env.snapOk with
    | false => simp [GetProcessDetails, helev, hsnap]
    | true =>
      cases hent : env.entries with
      | nil => simp [GetProcessDetails, helev, hsnap, hent]
      | cons e rest =>
        simp [GetProcessDetails, helev, hsnap, hent, runEntries_ne_nil]

/-- Concrete whole-call environment: elevation succeeds but
`CreateToolhelp32Snapshot` fails. -/
def sysSnapFail : SysEnv :=
  { tok := ⟨true, true, true, false⟩
  , snapOk := false
  , entries := [⟨1, [115]⟩]
  , procEnv := fun _ => penvDenied
  , cancel := fun _ => false }

/-- Witness for C8 (amended): snapshot-creation failure yields zero
callbacks and a diagnostic. -/
theorem C8_setup_abort_amended_witness :
    (GetProcessDetails sysSnapFail).2 = [] ∧ (GetProcessDetails sysSnapFail).1 ≠ [] :=
  ⟨(C8_setup_abort_amended sysSnapFail).1.mpr (Or.inr (Or.inl rfl)),
   (C8_setup_abort_amended sysSnapFail).2.mpr (Or.inr (Or.inl rfl))⟩

/-- Claim C7: during a pass the callback fires exactly once per processed
snapshot entry, in snapshot order — the output is literally the
entry-by-entry image of the processed prefix — and with no cancellation
observed the whole snapshot is processed whatever each entry's enrichment
outcome (`pe` is arbitrary, including all-failing environments): no
per-process failure terminates the pass. -/
theorem C7_once_per_entry_in_order (pe : Nat → ProcEnv) (es : List Entry) :
    (∀ c : Nat → Bool,
      runEntries pe c es 0 =
        (es.take (runEntries pe c es 0).length).map
          (fun e => processEntry (pe e.pid) e)) ∧
    (∀ c : Nat → Bool, (runEntries pe c es 0).length ≤ es.length) ∧
    runEntries pe (fun _ => false) es 0 =
      es.map (fun e => processEntry (pe e.pid) e) := by
  refine ⟨fun c => runEntries_take pe c es 0,
    fun c => runEntries_length_le pe c es 0,
    runEntries_nocancel pe (fun _ => false) es 0 (fun j hj1 hj2 => rfl)⟩

/-- Claim C4: cancellation is observed only at the between-entries guard
checks.  The callback list is the image of the processed prefix (the entry
in flight completes its enrichment and receives its callback), a pass that
stops short does so because the guard check after its last processed entry
read `true`, any check reading `true` with entries remaining caps the
callback count at that check's index (strictly below the snapshot's entry
count), and if no such check reads `true` the whole snapshot is
processed. -/
theorem C4_cancellation_between_entries (pe : Nat → ProcEnv) (c : Nat → Bool)
    (es : List Entry) :
    (runEntries pe c es 0 =
      (es.take (runEntries pe c es 0).length).map
        (fun e => processEntry (pe e.pid) e)) ∧
    ((runEntries pe c es 0).length < es.length →
      c (runEntries pe c es 0).length = true) ∧
    (∀ j, 1 ≤ j → j < es.length → c j = true →
      (runEntries pe c es 0).length ≤ j ∧
      (runEntries pe c es 0).length < es.length) ∧
    ((∀ j, 1 ≤ j → j < es.length → c j = false) →
      (runEntries pe c es 0).length = es.length) := by
  refine ⟨runEntries_take pe c es 0, ?_, ?_, ?_⟩
  · intro h
    have hs := runEntries_stop pe c es 0 h
    simpa using hs
  · intro j hj1 hj2 hc
    have h1 := runEntries_cancel_le pe c es 0 j hj1 hj2 (by simpa using hc)
    exact ⟨h1, lt_of_le_of_lt h1 hj2⟩
  · intro h
    rw [runEntries_nocancel pe c es 0 (fun j a b => by simpa using h j a b)]
    simp

/-- Concrete three-entry snapshot. -/
def entriesThree : List Entry := [⟨1, [97]⟩, ⟨2, [98]⟩, ⟨3, [99]⟩]

/-- Witness for C4: with the flag turning `true` at the check after two
processed entries of a three-entry snapshot, at most two callbacks are
delivered — strictly fewer than the snapshot's entry count. -/
theorem C4_cancellation_between_entries_witness :
    (runEntries (fun _ => penvDenied) (fun k => decide (2 ≤ k)) entriesThree 0).length ≤ 2 ∧
    (runEntries (fun _ => penvDenied) (fun k => decide (2 ≤ k)) entriesThree 0).length <
      entriesThree.length :=
  (C4_cancellation_between_entries (fun _ => penvDenied) (fun k => decide (2 ≤ k))
    entriesThree).2.2.1 2 (by decide) (by decide) (by decide)

/-- Claim C9: the cancellation flag starts `false`; `RequestCancellation`
is the only operation that writes it and sets it `true`;
`GetProcessDetails` leaves it unchanged; `true` is absorbing (no operation
resets it); and once `true`, every subsequent pass processes at most one
snapshot entry. -/
theorem C9_flag_monotone :
    initialCancel = false ∧
    (∀ flag : Bool, stepFlag flag Op.requestCancellation = true) ∧
    (∀ (flag : Bool) (env : SysEnv), stepFlag flag (Op.getDetails env) = flag) ∧
    (∀ op : Op, stepFlag true op = true) ∧
    (∀ env : SysEnv, ((detailsWithFlag true env).2).length ≤ 1) := by
  refine ⟨rfl, fun _ => rfl, fun _ _ => rfl, fun op => ?_, fun env => ?_⟩
  · cases op <;> rfl
  · rcases env with ⟨t, s, es, p, cflag⟩
    show ((GetProcessDetails ⟨t, s, es, p, fun _ => true⟩).2).length ≤ 1
    cases helev : (EnableDebugPrivilege t).ok with
    | false => simp [GetProcessDetails, helev]
    | true =>
      cases s with
      | false => simp [GetProcessDetails, helev]
      | true =>
        cases es with
        | nil => simp [GetProcessDetails, helev]
        | cons e rest =>
          simp [GetProcessDetails, helev, runEntries_cancelled]
